import Mathlib

/-! Shallow embedding of the rlox compiler and virtual machine
(src/scanner.rs, src/parser.rs, src/compiler.rs, src/chunk.rs, src/value.rs,
src/vm.rs, src/driver.rs), together with theorems settling the spec claims.

Modelling conventions:
* Rust panics (`panic!`, `.expect(..)`, out-of-bounds indexing, `u32`
  underflow, HashMap `Index` on a missing key) are modelled as
  `Except.error` with a message echoing the panic; ordinary returns are
  `Except.ok`.
* Rust `f64` is modelled as `Rat`.  Every arithmetic operation appearing in
  the claims stays on small integers, where `f64` arithmetic is exact, so
  the abstraction is faithful on all evaluated programs.
* Source text is a `List Char` (the scanner indexes `source.as_bytes()`;
  all claim programs are ASCII, where byte and character indexing agree).
* Rust `loop`/`while` constructs are modelled with an explicit fuel
  argument; running out of fuel is an `Except.error "out of fuel"`, which
  is never reached by the concrete programs evaluated in the theorems
  (each loop iteration advances a cursor bounded by the source length).
* Lines printed to stdout (by `kop_print` and by `VM::runtime_error`) are
  accumulated in order in an `output` list; compile-time diagnostics
  printed by `error_at` are accumulated in a `diags` list.
-/

namespace RLox

/-- The single-quote character (code 39), used by `show_obj`. -/
def squoteC : Char := Char.ofNat 39

/-- The double-quote character (code 34), used by the scanner. -/
def dquoteC : Char := Char.ofNat 34

/-- One-character string holding a single quote. -/
def squote : String := String.singleton squoteC

/-- The left-brace character (code 123). -/
def lbraceC : Char := Char.ofNat 123

/-- The right-brace character (code 125). -/
def rbraceC : Char := Char.ofNat 125

/-! Scanner (src/scanner.rs). -/

/-- Token kinds, from `enum TokenType` in src/scanner.rs. -/
inductive TokenType where
  | LeftParen | RightParen
  | LeftBrace | RightBrace
  | Comma | Dot | Minus | Plus
  | SemiColon | Slash | Star
  | Bang | BangEqual
  | Equal | EqualEqual
  | Greater | GreaterEqual
  | Less | LessEqual
  | Identifier | String | Number
  | And | Class | Else | False
  | For | Fun | If | Nil | Or
  | Print | Return | Super | This
  | True | Var | While
  | Error | EOF
deriving DecidableEq

/-- `struct Span` from src/span.rs. -/
structure Span where
  start : Nat
  len : Nat
deriving DecidableEq

/-- `struct Token` from src/scanner.rs. -/
structure Token where
  tp : TokenType
  span : Span
  content : String
  line : Nat
deriving DecidableEq

/-- `struct ScannerState` from src/scanner.rs. -/
structure ScannerState where
  start : Nat
  current : Nat
  line : Nat
deriving DecidableEq

/-- `ScannerState::new`. -/
def scannerNew : ScannerState := { start := 0, current := 0, line := 1 }

/-- `is_eof`: cursor at or past the end of the source buffer. -/
def isEofS (src : List Char) (s : ScannerState) : Bool :=
  decide (src.length ≤ s.current)

/-- Indexing into the source buffer; Rust `source.as_bytes()[i]` panics when
`i` is out of bounds, modelled as `Except.error`. -/
def getCh (src : List Char) (i : Nat) : Except String Char :=
  match src.get? i with
  | some c => .ok c
  | none => .error "index out of bounds"

/-- `peek`: reads the character at the cursor with no bounds check. -/
def peekS (src : List Char) (s : ScannerState) : Except String Char :=
  getCh src s.current

/-- `peek_next`: bounds-checked lookahead one past the cursor. -/
def peekNextS (src : List Char) (s : ScannerState) : Option Char :=
  src.get? (s.current + 1)

/-- `advance`: panics with "EOF!" at end of buffer, else consumes one
character. -/
def advanceS (src : List Char) (s : ScannerState) :
    Except String (Char × ScannerState) :=
  if isEofS src s then .error "EOF!"
  else do
    let c ← getCh src s.current
    .ok (c, { s with current := s.current + 1 })

/-- `make_token`: token covering `source[start..current]`. -/
def makeToken (src : List Char) (s : ScannerState) (tp : TokenType) : Token :=
  { tp
    span := ⟨s.start, s.current - s.start⟩
    content := String.mk ((src.drop s.start).take (s.current - s.start))
    line := s.line }

/-- `error_token`: an Error token carrying a message. -/
def errorToken (s : ScannerState) (msg : String) : Token :=
  { tp := .Error, span := ⟨0, 0⟩, content := msg, line := s.line }

/-- `is_digit`. -/
def isDigitC (c : Char) : Bool :=
  decide (('0' : Char) ≤ c ∧ c ≤ ('9' : Char))

/-- `is_alpha`. -/
def isAlphaC (c : Char) : Bool :=
  decide ((('a' : Char) ≤ c ∧ c ≤ ('z' : Char)) ∨
          (('A' : Char) ≤ c ∧ c ≤ ('Z' : Char)))

/-- `is_alpha_underscore`. -/
def isAlphaUnderscoreC (c : Char) : Bool :=
  isAlphaC c || decide (c = '_')

/-- Inner loop of the `'/'` arm of `skip_whitespaces`: consume a line
comment up to (not including) the newline or end of input. -/
def commentLoop : Nat → List Char → ScannerState → Except String ScannerState
  | 0, _, _ => .error "out of fuel"
  | fuel + 1, src, s =>
    if isEofS src s then .ok s
    else do
      let c ← peekS src s
      if c = '\n' then .ok s
      else do
        let (_, s) ← advanceS src s
        commentLoop fuel src s

/-- `skip_whitespaces`. -/
def skipWhitespaces : Nat → List Char → ScannerState → Except String ScannerState
  | 0, _, _ => .error "out of fuel"
  | fuel + 1, src, s =>
    if isEofS src s then .ok s
    else do
      let ch ← peekS src s
      if ch = ' ' ∨ ch = '\r' ∨ ch = '\t' then do
        let (_, s) ← advanceS src s
        skipWhitespaces fuel src s
      else if ch = '\n' then do
        let (_, s) ← advanceS src s
        skipWhitespaces fuel src { s with line := s.line + 1 }
      else if ch = '/' then
        match peekNextS src s with
        | some c2 =>
          if c2 = '/' then do
            let s ← commentLoop (src.length + 1) src s
            skipWhitespaces fuel src s
          else .ok s
        | none => .ok s
      else .ok s

/-- `match_ahead`: consume the next character iff it equals `expected`. -/
def matchAhead (src : List Char) (s : ScannerState) (expected : Char) :
    Except String (Bool × ScannerState) :=
  if isEofS src s then .ok (false, s)
  else do
    let ch ← peekS src s
    if ch = expected then do
      let (_, s) ← advanceS src s
      .ok (true, s)
    else .ok (false, s)

/-- Body loop of `scan_string`: consume characters up to the closing quote
or end of input, counting newlines. -/
def scanStringLoop : Nat → List Char → ScannerState → Except String ScannerState
  | 0, _, _ => .error "out of fuel"
  | fuel + 1, src, s =>
    if isEofS src s then .ok s
    else do
      let c ← peekS src s
      if c = dquoteC then .ok s
      else do
        let s := if c = '\n' then { s with line := s.line + 1 } else s
        let (_, s) ← advanceS src s
        scanStringLoop fuel src s

/-- `scan_string`. -/
def scanString (src : List Char) (s : ScannerState) :
    Except String (Token × ScannerState) := do
  let s ← scanStringLoop (src.length + 1) src s
  if isEofS src s then .ok (errorToken s "Non-terminated string literal", s)
  else do
    let (_, s) ← advanceS src s
    .ok (makeToken src s .String, s)

/-- The `while !is_eof && is_digit(peek)` loop of `scan_number`. -/
def digitLoop : Nat → List Char → ScannerState → Except String ScannerState
  | 0, _, _ => .error "out of fuel"
  | fuel + 1, src, s =>
    if isEofS src s then .ok s
    else do
      let c ← peekS src s
      if isDigitC c then do
        let (_, s) ← advanceS src s
        digitLoop fuel src s
      else .ok s

/-- `scan_number`.  NOTE: faithful to the source, the check for a fraction
part calls `peek` WITHOUT an `is_eof` guard (src/scanner.rs line 210), so a
digit run that reaches the end of the buffer indexes past it and panics. -/
def scanNumber (src : List Char) (s : ScannerState) :
    Except String (Token × ScannerState) := do
  let s ← digitLoop (src.length + 1) src s
  let c ← peekS src s
  if c = '.' then do
    let (_, s) ← advanceS src s
    let s ← digitLoop (src.length + 1) src s
    .ok (makeToken src s .Number, s)
  else .ok (makeToken src s .Number, s)

/-- The identifier-character loop of `scan_identifier`. -/
def identLoop : Nat → List Char → ScannerState → Except String ScannerState
  | 0, _, _ => .error "out of fuel"
  | fuel + 1, src, s =>
    if isEofS src s then .ok s
    else do
      let c ← peekS src s
      if isAlphaUnderscoreC c then do
        let (_, s) ← advanceS src s
        identLoop fuel src s
      else .ok s

/-- `keyword_or_identifier`. -/
def keywordOrIdentifier (content : String) : TokenType :=
  match content with
  | "and" => .And
  | "class" => .Class
  | "else" => .Else
  | "false" => .False
  | "for" => .For
  | "fun" => .Fun
  | "if" => .If
  | "nil" => .Nil
  | "or" => .Or
  | "print" => .Print
  | "return" => .Return
  | "super" => .Super
  | "this" => .This
  | "true" => .True
  | "var" => .Var
  | "while" => .While
  | _ => .Identifier

/-- `scan_identifier`. -/
def scanIdentifier (src : List Char) (s : ScannerState) :
    Except String (Token × ScannerState) := do
  let s ← identLoop (src.length + 1) src s
  let slice := String.mk ((src.drop s.start).take (s.current - s.start))
  .ok (makeToken src s (keywordOrIdentifier slice), s)

/-- `next_token`. -/
def nextToken (src : List Char) (s0 : ScannerState) :
    Except String (Token × ScannerState) := do
  let s ← skipWhitespaces (src.length + 1) src s0
  let s := { s with start := s.current }
  if isEofS src s then .ok (makeToken src s .EOF, s)
  else do
    let (c, s) ← advanceS src s
    match c with
    | '(' => .ok (makeToken src s .LeftParen, s)
    | ')' => .ok (makeToken src s .RightParen, s)
    | ';' => .ok (makeToken src s .SemiColon, s)
    | ',' => .ok (makeToken src s .Comma, s)
    | '.' => .ok (makeToken src s .Dot, s)
    | '-' => .ok (makeToken src s .Minus, s)
    | '+' => .ok (makeToken src s .Plus, s)
    | '/' => .ok (makeToken src s .Slash, s)
    | '*' => .ok (makeToken src s .Star, s)
    | '!' => do
      let (m, s) ← matchAhead src s '='
      .ok (makeToken src s (if m then .BangEqual else .Bang), s)
    | '=' => do
      let (m, s) ← matchAhead src s '='
      .ok (makeToken src s (if m then .EqualEqual else .Equal), s)
    | '>' => do
      let (m, s) ← matchAhead src s '='
      .ok (makeToken src s (if m then .GreaterEqual else .Greater), s)
    | '<' => do
      let (m, s) ← matchAhead src s '='
      .ok (makeToken src s (if m then .LessEqual else .Less), s)
    | c =>
      if c = lbraceC then .ok (makeToken src s .LeftBrace, s)
      else if c = rbraceC then .ok (makeToken src s .RightBrace, s)
      else if c = dquoteC then scanString src s
      else if isDigitC c then scanNumber src s
      else if isAlphaUnderscoreC c then scanIdentifier src s
      else
        .ok (errorToken s
          ("Fail to tokenize at character " ++ squote ++ String.singleton c ++ squote), s)

/-! Value model (src/value.rs) and heap objects. -/

/-- Modelled from the spec: `enum Obj` lives in src/obj.rs, which is not
present under src/ (only its uses in value.rs, parser.rs and debug.rs are).
Per the spec, "Object: currently one variant, String (contents)"; the
exhaustive single-arm matches in value.rs confirm the single `Str` variant
carrying the string contents.  The `Rc` shared-ownership wrapper has no
observable effect on values, so an `Obj` is its contents. -/
inductive Obj where
  | Str (data : String)
deriving DecidableEq

/-- `enum Value` from src/value.rs; `f64` modelled as `Rat`. -/
inductive Value where
  | DOUBLE (data : Rat)
  | BOOL (data : Bool)
  | NIL
  | OBJ (data : Obj)
  | EMPTY
deriving DecidableEq

/-- `Value::is_string`. -/
def Value.isString : Value → Bool
  | .OBJ (.Str _) => true
  | _ => false

/-- `Value::as_string`. -/
def Value.asString : Value → Option String
  | .OBJ (.Str s) => some s
  | _ => none

/-- `Value::create_string_obj`. -/
def Value.createStringObj (s : String) : Value := .OBJ (.Str s)

/-- `matches!(v, Value::DOUBLE ..)`, the checker used by the numeric
type checks in VM::run. -/
def Value.isDouble : Value → Bool
  | .DOUBLE _ => true
  | _ => false

/-- `matches!(v, Value::BOOL ..)`. -/
def Value.isBool : Value → Bool
  | .BOOL _ => true
  | _ => false

/-- `matches!(v, Value::NIL)`. -/
def Value.isNil : Value → Bool
  | .NIL => true
  | _ => false

/-- Rendering of a double by `show_value` (Rust `format!` on `f64`): an
integral value prints with no decimal point.  Non-integral doubles print in
decimal notation in Rust; that case is rendered here as `num/den` and is
never reached by the claims, all of whose printed numbers are integral. -/
def showRat (q : Rat) : String :=
  if q.den = 1 then toString q.num
  else toString q.num ++ "/" ++ toString q.den

/-- `show_obj` from src/debug.rs: strings render wrapped in single
quotes. -/
def showObj : Obj → String
  | .Str s => squote ++ s ++ squote

/-- `show_value` from src/debug.rs. -/
def showValue : Value → String
  | .DOUBLE q => showRat q
  | .BOOL b => toString b
  | .NIL => "nil"
  | .OBJ o => showObj o
  | .EMPTY => "EMPTY"

/-! Bytecode (src/chunk.rs). -/

/-- `enum KMethod`. -/
inductive KMethod where
  | Print
deriving DecidableEq

/-- `KMethod as u8`: the discriminant used as the kernel-method id. -/
def KMethod.code : KMethod → Nat
  | .Print => 0

/-- `enum Inst`. -/
inductive Inst where
  | RETURN
  | CONSTANT (idx : Nat)
  | OP_NEGATE
  | OP_ADD
  | OP_SUB
  | OP_MUL
  | OP_DIV
  | OP_NOT
  | OP_EQ
  | OP_GT
  | OP_LT
  | OP_KCALL (tp : KMethod)
  | OP_POP
  | OP_DEFINE_GLOBAL (name_idx : Nat)
  | OP_GET_GLOBAL (name_idx : Nat)
deriving DecidableEq

/-- `ValueArray::add_constant`: append, returning the new index. -/
def addConstant (va : List Value) (v : Value) : Nat × List Value :=
  (va.length, va ++ [v])

/-- `ValueArray::read`: indexes the pool, panicking when out of range. -/
def readConst (va : List Value) (idx : Nat) : Except String Value :=
  match va.get? idx with
  | some v => .ok v
  | none => .error "index out of bounds"

/-- `struct Chunk`: instruction sequence, constant pool, line table. -/
structure Chunk where
  data : List Inst
  valueArray : List Value
  lines : List Nat
deriving DecidableEq

/-- `Chunk::write`: append an instruction and its line in lockstep. -/
def chunkWrite (c : Chunk) (op : Inst) (line : Nat) : Chunk :=
  { c with data := c.data ++ [op], lines := c.lines ++ [line] }

/-- `Chunk::new`. -/
def chunkNew : Chunk := { data := [], valueArray := [], lines := [] }

/-! Parser (src/parser.rs). -/

/-- `enum Precedence`. -/
inductive Precedence where
  | None | Assignment | Or | And | Equality | Comparison
  | Term | Factor | Unary | Call | Primary
deriving DecidableEq

/-- The rank order derived by `PartialOrd`/`Ord` on `Precedence` (variant
declaration order). -/
def Precedence.toNat : Precedence → Nat
  | .None => 0
  | .Assignment => 1
  | .Or => 2
  | .And => 3
  | .Equality => 4
  | .Comparison => 5
  | .Term => 6
  | .Factor => 7
  | .Unary => 8
  | .Call => 9
  | .Primary => 10

/-- `Precedence::succ`. -/
def Precedence.succ : Precedence → Precedence
  | .None => .Assignment
  | .Assignment => .Or
  | .Or => .And
  | .And => .Equality
  | .Equality => .Comparison
  | .Comparison => .Term
  | .Term => .Factor
  | .Factor => .Unary
  | .Unary => .Call
  | .Call => .Primary
  | .Primary => .Primary

/-- Names of the prefix parse actions stored in the rule table (the Rust
table stores the corresponding function pointers `parse_grouping`,
`parse_unary`, `parse_number`, `parse_variable`, `parse_string`,
`parse_literal`). -/
inductive PrefixAct where
  | grouping | unary | number | variableGet | stringLit | literal
deriving DecidableEq

/-- Names of the infix parse actions stored in the rule table (the Rust
table stores only `parse_binary`). -/
inductive InfixAct where
  | binary
deriving DecidableEq

/-- `struct ParseRule` (fields `prefix`, `infix`, `prec` in the source). -/
structure ParseRule where
  prefixFn : Option PrefixAct
  infixFn : Option InfixAct
  prec : Precedence
deriving DecidableEq

/-- `ParseRule::make_rules`: the parse table as a partial map.  Token kinds
never inserted by `make_rules` (`BangEqual`, `Equal`, `GreaterEqual`,
`LessEqual`, `And`, `Class`, `Else`, `For`, `Fun`, `If`, `Or`, `Return`,
`Super`, `This`, `Var`, `While`, `Error`) map to `none` — the source ends
with a "TODO finish parsing table" comment. -/
def makeRules : TokenType → Option ParseRule
  | .LeftParen => some ⟨some .grouping, none, .None⟩
  | .RightParen => some ⟨none, none, .None⟩
  | .LeftBrace => some ⟨none, none, .None⟩
  | .RightBrace => some ⟨none, none, .None⟩
  | .Comma => some ⟨none, none, .None⟩
  | .Dot => some ⟨none, none, .None⟩
  | .SemiColon => some ⟨none, none, .None⟩
  | .Print => some ⟨none, none, .None⟩
  | .Minus => some ⟨some .unary, some .binary, .Term⟩
  | .Plus => some ⟨none, some .binary, .Term⟩
  | .Slash => some ⟨none, some .binary, .Factor⟩
  | .Star => some ⟨none, some .binary, .Factor⟩
  | .EqualEqual => some ⟨none, some .binary, .Equality⟩
  | .Greater => some ⟨none, some .binary, .Comparison⟩
  | .Less => some ⟨none, some .binary, .Comparison⟩
  | .Number => some ⟨some .number, none, .None⟩
  | .Identifier => some ⟨some .variableGet, none, .None⟩
  | .String => some ⟨some .stringLit, none, .None⟩
  | .False => some ⟨some .literal, none, .None⟩
  | .True => some ⟨some .literal, none, .None⟩
  | .Nil => some ⟨some .literal, none, .None⟩
  | .Bang => some ⟨some .unary, none, .None⟩
  | .EOF => some ⟨none, none, .None⟩
  | _ => none

/-- `ParserState::get_rule`: `&self.parsing_table[&tp]` — the HashMap
`Index` operator panics when the key is missing. -/
def getRule (tp : TokenType) : Except String ParseRule :=
  match makeRules tp with
  | some r => .ok r
  | none => .error "key not found"

/-- `struct ParserState` (the `parsing_table` field is modelled by the
global `makeRules`, the table `ParserState::new` always installs). -/
structure ParserState where
  current : Token
  previous : Token
  had_error : Bool
  panic_mode : Bool
deriving DecidableEq

/-- `empty_token`. -/
def emptyToken : Token :=
  { tp := .Error, span := ⟨0, 0⟩, content := "EMPTY TOKEN", line := 0 }

/-- `ParserState::new`. -/
def parserNew : ParserState :=
  { current := emptyToken, previous := emptyToken
    had_error := false, panic_mode := false }

/-- `error_at`: returns the updated parser state and the list of diagnostic
lines printed (empty when suppressed by `panic_mode`). -/
def errorAt (p : ParserState) (token : Token) (msg : String) :
    ParserState × List String :=
  if p.panic_mode then (p, [])
  else
    let loc :=
      match token.tp with
      | .EOF => " at End"
      | .Error => ""
      | _ => " at " ++ token.content
    let line := "[line " ++ toString token.line ++ "] Error" ++ loc ++ " : " ++ msg
    ({ p with panic_mode := true, had_error := true }, [line])

/-! Compiler state (src/compiler.rs) and the parsing functions. -/

/-- `struct Compiler`: source, scanner and parser state, and the chunk
under construction; `diags` accumulates the diagnostic lines printed by
`error_at`. -/
structure CompilerState where
  source : List Char
  scanner : ScannerState
  parser : ParserState
  chunk : Chunk
  diags : List String
deriving DecidableEq

/-- `Compiler::new`. -/
def compilerNew (source : List Char) : CompilerState :=
  { source, scanner := scannerNew, parser := parserNew
    chunk := chunkNew, diags := [] }

/-- `error_at` acting on the compiler: update the parser flags and record
any printed diagnostic. -/
def errorAtC (c : CompilerState) (token : Token) (msg : String) : CompilerState :=
  let (p, ls) := errorAt c.parser token msg
  { c with parser := p, diags := c.diags ++ ls }

/-- `emit_error`: report at the previous token. -/
def emitError (c : CompilerState) (msg : String) : CompilerState :=
  errorAtC c c.parser.previous msg

/-- `emit_error_at_current`: report at the current token. -/
def emitErrorAtCurrent (c : CompilerState) (msg : String) : CompilerState :=
  errorAtC c c.parser.current msg

/-- The Error-token-skipping loop inside `advance`. -/
def advanceLoop : Nat → CompilerState → Except String CompilerState
  | 0, _ => .error "out of fuel"
  | fuel + 1, c => do
    let (tok, sst) ← nextToken c.source c.scanner
    let c := { c with scanner := sst }
    if tok.tp ≠ TokenType.Error then
      .ok { c with parser := { c.parser with current := tok } }
    else
      advanceLoop fuel (emitErrorAtCurrent c tok.content)

/-- `advance` (parser): shift current into previous, then pull the next
non-Error token, reporting each Error token encountered. -/
def advanceP (c : CompilerState) : Except String CompilerState :=
  advanceLoop (c.source.length + 2)
    { c with parser := { c.parser with previous := c.parser.current } }

/-- `consume`. -/
def consume (c : CompilerState) (tp : TokenType) (msg : String) :
    Except String CompilerState :=
  if c.parser.current.tp = tp then advanceP c
  else .ok (errorAtC c c.parser.current msg)

/-- `check_next`. -/
def checkNext (c : CompilerState) (tp : TokenType) : Bool :=
  c.parser.current.tp = tp

/-- `try_consume`. -/
def tryConsume (c : CompilerState) (tp : TokenType) :
    Except String (Bool × CompilerState) :=
  if checkNext c tp then do
    let c ← consume c tp ""
    .ok (true, c)
  else .ok (false, c)

/-- `Compiler::emit_inst`: append to the chunk, tagged with the previous
token's line. -/
def emitInst (c : CompilerState) (inst : Inst) : CompilerState :=
  { c with chunk := chunkWrite c.chunk inst c.parser.previous.line }

/-- `emit_constant`. -/
def emitConstant (c : CompilerState) (v : Value) : CompilerState :=
  let (idx, va) := addConstant c.chunk.valueArray v
  emitInst { c with chunk := { c.chunk with valueArray := va } } (.CONSTANT idx)

/-- `make_str`: intern a string object in the constant pool, returning its
index. -/
def makeStr (c : CompilerState) (s : String) : Nat × CompilerState :=
  let (idx, va) := addConstant c.chunk.valueArray (Value.OBJ (.Str s))
  (idx, { c with chunk := { c.chunk with valueArray := va } })

/-- `emit_str`. -/
def emitStr (c : CompilerState) (s : String) : CompilerState :=
  emitConstant c (Value.OBJ (.Str s))

/-- `emit_print`. -/
def emitPrint (c : CompilerState) : CompilerState :=
  emitInst c (.OP_KCALL .Print)

/-- Decimal reading of a Number token's text (Rust
`content.parse::<f64>()` restricted to the grammar the scanner produces:
digits optionally followed by a dot and more digits).  A text outside that
grammar yields `none`, modelling the `expect` panic in `parse_number`. -/
def parseRatNumber (l : List Char) : Option Rat :=
  let intPart := l.takeWhile isDigitC
  let rest := l.drop intPart.length
  if intPart.isEmpty then none
  else
    let ip : Nat := intPart.foldl (fun a c => a * 10 + (c.toNat - 48)) 0
    match rest with
    | [] => some (mkRat ip 1)
    | c :: fs =>
      if c = '.' ∧ fs.all isDigitC then
        let fp : Nat := fs.foldl (fun a c => a * 10 + (c.toNat - 48)) 0
        some (mkRat (ip * 10 ^ fs.length + fp) (10 ^ fs.length))
      else none

/-- `parse_number`. -/
def parseNumber (c : CompilerState) : Except String CompilerState :=
  match parseRatNumber c.parser.previous.content.toList with
  | some q => .ok (emitConstant c (.DOUBLE q))
  | none => .error "Can not parse number."

/-- `parse_variable`: emit a read-global keyed by a fresh constant-pool
string holding the identifier's name. -/
def parseVariable (c : CompilerState) : CompilerState :=
  let (vid, c) := makeStr c c.parser.previous.content
  emitInst c (.OP_GET_GLOBAL vid)

/-- `parse_string`: strip the surrounding quotes (`s0[1..sl-1]`) and emit
the string constant. -/
def parseStringLit (c : CompilerState) : CompilerState :=
  let l := c.parser.previous.content.toList
  emitStr c (String.mk ((l.drop 1).dropLast))

/-- `parse_literal`. -/
def parseLiteral (c : CompilerState) : CompilerState :=
  match c.parser.previous.tp with
  | .False => emitConstant c (.BOOL false)
  | .True => emitConstant c (.BOOL true)
  | .Nil => emitConstant c .NIL
  | _ => c

/-- Diagnostic message of `parse_expr_stmt`/`parse_print_stmt`. -/
def msgSemi : String :=
  "Expect " ++ squote ++ ";" ++ squote ++ " at end of statement."

/-- Diagnostic message of `parse_var_decl`. -/
def msgVarSemi : String :=
  "Expecting " ++ squote ++ ";" ++ squote ++ " after variable decl"

/-- Diagnostic message of `parse_grouping`. -/
def msgRightParen : String :=
  "Expecting " ++ squote ++ ")" ++ squote ++ " after expression."

/-- Diagnostic message of `parse_var_decl` for a missing identifier. -/
def msgVarName : String := "Expecting variable name after `var`"

/-- The mutually recursive expression-parsing functions of src/parser.rs
(`parse_prec`, its infix loop, the dispatch of the stored prefix/infix
function pointers, `parse_expression`, `parse_grouping`, `parse_unary`,
`parse_binary`).  They are fused into one fuel-indexed dispatcher
`parseGo` (with one `ParseCall` tag per source function) so that the
recursion is structural on the fuel; the named wrappers below recover the
source functions. -/
inductive ParseCall where
  | prec (p : Precedence)
  | iloop (p : Precedence)
  | pact (a : PrefixAct)
  | iact (a : InfixAct)
  | expr
  | grouping
  | unary
  | binary
deriving DecidableEq

/-- Single-step dispatcher for the mutually recursive parse functions; the
body of each `ParseCall` arm is the body of the corresponding source
function. -/
def parseGo : Nat → ParseCall → CompilerState → Except String CompilerState
  | 0, _, _ => .error "out of fuel"
  | fuel + 1, call, c =>
    match call with
    | .prec prec => do
      let c ← advanceP c
      let rule ← getRule c.parser.previous.tp
      match rule.prefixFn with
      | none => .ok (emitError c "Expect expression.")
      | some act => do
        let c ← parseGo fuel (.pact act) c
        parseGo fuel (.iloop prec) c
    | .iloop prec => do
      let rule ← getRule c.parser.current.tp
      if prec.toNat > rule.prec.toNat then .ok c
      else do
        let c ← advanceP c
        match rule.infixFn with
        | none => parseGo fuel (.iloop prec) (emitError c "Expecting valid infix operator.")
        | some act => do
          let c ← parseGo fuel (.iact act) c
          parseGo fuel (.iloop prec) c
    | .pact act =>
      match act with
      | .grouping => parseGo fuel .grouping c
      | .unary => parseGo fuel .unary c
      | .number => parseNumber c
      | .variableGet => .ok (parseVariable c)
      | .stringLit => .ok (parseStringLit c)
      | .literal => .ok (parseLiteral c)
    | .iact act =>
      match act with
      | .binary => parseGo fuel .binary c
    | .expr => parseGo fuel (.prec .Assignment) c
    | .grouping => do
      let c ← parseGo fuel .expr c
      consume c .RightParen msgRightParen
    | .unary => do
      let tp := c.parser.previous.tp
      let c ← parseGo fuel .expr c
      match tp with
      | .Minus => .ok (emitInst c .OP_NEGATE)
      | .Bang => .ok (emitInst c .OP_NOT)
      | _ => .error "Unexpected unary operator"
    | .binary => do
      let opType := c.parser.previous.tp
      let rule ← getRule opType
      let c ← parseGo fuel (.prec rule.prec.succ) c
      match opType with
      | .Plus => .ok (emitInst c .OP_ADD)
      | .Minus => .ok (emitInst c .OP_SUB)
      | .Star => .ok (emitInst c .OP_MUL)
      | .Slash => .ok (emitInst c .OP_DIV)
      | .EqualEqual => .ok (emitInst c .OP_EQ)
      | .Greater => .ok (emitInst c .OP_GT)
      | .Less => .ok (emitInst c .OP_LT)
      | _ => .ok c

/-- `parse_prec`. -/
def parsePrec (fuel : Nat) (prec : Precedence) (c : CompilerState) :
    Except String CompilerState :=
  parseGo fuel (.prec prec) c

/-- `parse_expression`: parse at the lowest real precedence,
`Assignment`. -/
def parseExpression (fuel : Nat) (c : CompilerState) :
    Except String CompilerState :=
  parseGo fuel .expr c

/-- `parse_grouping`. -/
def parseGrouping (fuel : Nat) (c : CompilerState) :
    Except String CompilerState :=
  parseGo fuel .grouping c

/-- `parse_unary`: NOTE (faithful to the source) the operand is parsed by
`parse_expression`, i.e. at `Assignment` precedence, not at `Unary`. -/
def parseUnary (fuel : Nat) (c : CompilerState) :
    Except String CompilerState :=
  parseGo fuel .unary c

/-- `parse_binary`: parse the right operand one level above this
operator's precedence, then emit its instruction. -/
def parseBinary (fuel : Nat) (c : CompilerState) :
    Except String CompilerState :=
  parseGo fuel .binary c

/-- `parse_expr_stmt`. -/
def parseExprStmt (fuel : Nat) (c : CompilerState) : Except String CompilerState := do
  let c ← parseExpression fuel c
  let c ← consume c .SemiColon msgSemi
  .ok (emitInst c .OP_POP)

/-- `parse_print_stmt`. -/
def parsePrintStmt (fuel : Nat) (c : CompilerState) : Except String CompilerState := do
  let c ← parseExpression fuel c
  let c ← consume c .SemiColon msgSemi
  .ok (emitPrint c)

/-- `parse_stmt`. -/
def parseStmt (fuel : Nat) (c : CompilerState) : Except String CompilerState := do
  let (b, c) ← tryConsume c .Print
  if b then parsePrintStmt fuel c else parseExprStmt fuel c

/-- `parse_var` (parser): consume the identifier and intern its name. -/
def parseVar (c : CompilerState) (errMsg : String) :
    Except String (Nat × CompilerState) := do
  let c ← consume c .Identifier errMsg
  .ok (makeStr c c.parser.previous.content)

/-- `define_variable` (parser): emit the define-global instruction. -/
def defineVariableC (c : CompilerState) (varnameIdx : Nat) : CompilerState :=
  emitInst c (.OP_DEFINE_GLOBAL varnameIdx)

/-- `parse_var_decl`. -/
def parseVarDecl (fuel : Nat) (c : CompilerState) : Except String CompilerState := do
  let (idx, c) ← parseVar c msgVarName
  let (b, c) ← tryConsume c .Equal
  let c ← if b then parseExpression fuel c else .ok (emitConstant c .NIL)
  let c ← consume c .SemiColon msgVarSemi
  .ok (defineVariableC c idx)

/-- `parse_decl`. -/
def parseDecl (fuel : Nat) (c : CompilerState) : Except String CompilerState := do
  let (b, c) ← tryConsume c .Var
  if b then parseVarDecl fuel c else parseStmt fuel c

/-- The declaration loop of `Compiler::compile`. -/
def compileLoop : Nat → Nat → CompilerState → Except String CompilerState
  | 0, _, _ => .error "out of fuel"
  | fuel + 1, efuel, c => do
    let (b, c) ← tryConsume c .EOF
    if b then .ok c
    else do
      let c ← parseDecl efuel c
      compileLoop fuel efuel c

/-- Fuel bound handed to the expression parser; generous for any source
(every recursion step consumes at least one token). -/
def fuelOf (src : List Char) : Nat := src.length * 4 + 64

/-- `Compiler::compile`: returns success (no error recorded) and the final
compiler state holding the finished chunk. -/
def compile (c : CompilerState) : Except String (Bool × CompilerState) := do
  let c ← advanceP c
  let c ← compileLoop (c.source.length + 2) (fuelOf c.source) c
  let c := emitInst c .RETURN
  .ok (!c.parser.had_error, c)

/-! Virtual machine (src/vm.rs). -/

/-- `enum InterpretResult`. -/
inductive InterpretResult where
  | Ok | CompileError | RuntimeError
deriving DecidableEq

/-- `STACK_MAX`. -/
def STACK_MAX : Nat := 128

/-- `struct VM`: chunk, program counter, fixed 128-slot operand stack with
stack pointer, globals table, and the stdout lines produced so far
(`enable_trace` is `false` throughout `Driver::interpret` runs and tracing
has no effect on state, so it is not modelled). -/
structure VMState where
  chunk : Chunk
  pc : Nat
  stack : List Value
  sp : Nat
  globals : List (String × Value)
  output : List String
deriving DecidableEq

/-- `VM::new` with `create_empty_stack`: 128 `EMPTY` slots, sp = 0. -/
def vmNew (chunk : Chunk) : VMState :=
  { chunk, pc := 0, stack := List.replicate STACK_MAX .EMPTY, sp := 0
    globals := [], output := [] }

/-- `VM::push`: writes at `sp` then increments.  Rust indexes the 128-slot
vector with no explicit bound check; `vec[sp]` panics when `sp` is not
below the vector's length. -/
def pushV (st : VMState) (value : Value) : Except String VMState :=
  if st.sp < st.stack.length then
    .ok { st with stack := st.stack.set st.sp value, sp := st.sp + 1 }
  else .error "index out of bounds"

/-- `VM::pop`: `None` on an empty stack, else decrement then read. -/
def popV (st : VMState) : Except String (Option Value × VMState) :=
  if st.sp = 0 then .ok (none, st)
  else
    match st.stack.get? (st.sp - 1) with
    | some v => .ok (some v, { st with sp := st.sp - 1 })
    | none => .error "index out of bounds"

/-- `VM::peek_opt`. -/
def peekOptV (st : VMState) : Except String (Option Value) :=
  if st.sp = 0 then .ok none
  else
    match st.stack.get? (st.sp - 1) with
    | some v => .ok (some v)
    | none => .error "index out of bounds"

/-- `VM::peek`: `peek_opt().expect(..)`. -/
def peekV (st : VMState) : Except String Value := do
  match ← peekOptV st with
  | some v => .ok v
  | none => .error "Peeking value, but found an empty stack"

/-- `VM::peek_at_opt` and `VM::peek_at`: `sp - idx` is `u32` arithmetic, so
`idx > sp` underflows (a panic); `sp - idx = 0` gives `None`, which
`peek_at`'s `expect` turns into a panic. -/
def peekAtV (st : VMState) (idx : Nat) : Except String Value :=
  if st.sp < idx then .error "arithmetic underflow"
  else if st.sp - idx = 0 then .error "Peeking value, but found an empty stack"
  else
    match st.stack.get? (st.sp - idx - 1) with
    | some v => .ok v
    | none => .error "index out of bounds"

/-- `VM::update_global`: HashMap insert, overwriting any prior binding
(modelled by prepending; lookups read the most recent binding first). -/
def updateGlobal (st : VMState) (name : String) (v : Value) : VMState :=
  { st with globals := (name, v) :: st.globals }

/-- `VM::runtime_error`: reads the line table at `pc` (panicking if out of
range, as Rust indexing does) and prints the message.  (The
"[line N] in script" companion line goes to stderr and is not part of the
modelled stdout.) -/
def runtimeErrorV (st : VMState) (msg : String) : Except String VMState :=
  match st.chunk.lines.get? st.pc with
  | some _ => .ok { st with output := st.output ++ [msg] }
  | none => .error "index out of bounds"

/-- `VM::unop_typecheck`. -/
def unopTypecheck (st : VMState) (checker : Value → Bool) (desc : String) :
    Except String (Bool × VMState) := do
  let v ← peekV st
  if checker v then .ok (true, st)
  else do
    let st ← runtimeErrorV st ("Expecting operand of type " ++ desc)
    .ok (false, st)

/-- `VM::binop_typecheck`. -/
def binopTypecheck (st : VMState) (checker : Value → Bool) (desc : String) :
    Except String (Bool × VMState) := do
  let v1 ← peekAtV st 0
  let v2 ← peekAtV st 1
  if checker v1 && checker v2 then .ok (true, st)
  else do
    let st ← runtimeErrorV st ("Expecting operands of type " ++ desc)
    .ok (false, st)

/-- `VM::binop_typecheck_both`. -/
def binopTypecheckBoth (st : VMState) (checker : Value → Value → Bool)
    (desc : String) : Except String (Bool × VMState) := do
  let v1 ← peekAtV st 0
  let v2 ← peekAtV st 1
  if checker v1 v2 then .ok (true, st)
  else do
    let st ← runtimeErrorV st ("Expecting operands of type " ++ desc)
    .ok (false, st)

/-- Rational addition through the normalized-fraction formula.  The
library's `Rat.add` is marked irreducible, which blocks kernel evaluation
of concrete runs; this computes the same value (theorem `ratAdd_eq`
below). -/
def ratAdd (a b : Rat) : Rat :=
  mkRat (a.num * b.den + b.num * a.den) (a.den * b.den)

/-- Rational subtraction, same as `a - b` (theorem `ratSub_eq`). -/
def ratSub (a b : Rat) : Rat :=
  mkRat (a.num * b.den - b.num * a.den) (a.den * b.den)

/-- Rational multiplication, same as `a * b` (theorem `ratMul_eq`). -/
def ratMul (a b : Rat) : Rat :=
  mkRat (a.num * b.num) (a.den * b.den)

/-- Rational inverse, same as `a.inv` (theorem `ratInv_eq`). -/
def ratInv (a : Rat) : Rat := Rat.divInt a.den a.num

/-- Rational division, same as `a / b` (theorem `ratDiv_eq`).  (Rust `f64`
division by zero produces an infinity, which no claim exercises; here
division by zero yields 0, the `Rat` convention.) -/
def ratDiv (a b : Rat) : Rat := ratMul a (ratInv b)

/-- `op_negate`. -/
def opNegate : Value → Value
  | .DOUBLE x => .DOUBLE (Rat.neg x)
  | _ => .EMPTY

/-- `op_not`. -/
def opNot : Value → Value
  | .BOOL b => .BOOL (!b)
  | .NIL => .BOOL true
  | _ => .EMPTY

/-- `op_add`: `v1` is the first-popped operand, `v2` the second-popped.
For strings the result is `s2` followed by `s1` (`let mut s =
s2.to_string(); s.push_str(s1)`).  The `panic!` branch for a pair of
non-string objects is unreachable because `Obj` has only the `Str`
variant. -/
def opAdd (v1 v2 : Value) : Value :=
  match v1, v2 with
  | .DOUBLE x1, .DOUBLE x2 => .DOUBLE (ratAdd x1 x2)
  | .OBJ (.Str s1), .OBJ (.Str s2) => Value.createStringObj (s2 ++ s1)
  | _, _ => .EMPTY

/-- `op_sub`: flips the popped order, `x2 - x1`. -/
def opSub (v1 v2 : Value) : Value :=
  match v1, v2 with
  | .DOUBLE x1, .DOUBLE x2 => .DOUBLE (ratSub x2 x1)
  | _, _ => .EMPTY

/-- `op_mul`. -/
def opMul (v1 v2 : Value) : Value :=
  match v1, v2 with
  | .DOUBLE x1, .DOUBLE x2 => .DOUBLE (ratMul x1 x2)
  | _, _ => .EMPTY

/-- `op_div`: flips the popped order, `x2 / x1`. -/
def opDiv (v1 v2 : Value) : Value :=
  match v1, v2 with
  | .DOUBLE x1, .DOUBLE x2 => .DOUBLE (ratDiv x2 x1)
  | _, _ => .EMPTY

/-- `op_eq`: per-type equality, `false` on every other pairing. -/
def opEq (v1 v2 : Value) : Value :=
  match v1, v2 with
  | .DOUBLE x1, .DOUBLE x2 => .BOOL (decide (x1 = x2))
  | .BOOL x1, .BOOL x2 => .BOOL (x1 == x2)
  | .NIL, .NIL => .BOOL true
  | .OBJ (.Str s1), .OBJ (.Str s2) => .BOOL (s1 == s2)
  | _, _ => .BOOL false

/-- `op_gt`: flips the popped order, `x2 > x1`. -/
def opGt (v1 v2 : Value) : Value :=
  match v1, v2 with
  | .DOUBLE x1, .DOUBLE x2 => .BOOL (Rat.blt x1 x2)
  | _, _ => .EMPTY

/-- `op_lt`: flips the popped order, `x2 < x1`. -/
def opLt (v1 v2 : Value) : Value :=
  match v1, v2 with
  | .DOUBLE x1, .DOUBLE x2 => .BOOL (Rat.blt x2 x1)
  | _, _ => .EMPTY

/-- `VM::lift_unop`. -/
def liftUnop (st : VMState) (op : Value → Value) : Except String VMState := do
  let (o, st) ← popV st
  match o with
  | none => pushV st .EMPTY
  | some v0 => pushV st (op v0)

/-- `VM::lift_binop`. -/
def liftBinop (st : VMState) (op : Value → Value → Value) :
    Except String VMState := do
  let (o1, st) ← popV st
  match o1 with
  | none => pushV st .EMPTY
  | some v1 => do
    let (o2, st) ← popV st
    match o2 with
    | none => pushV st .EMPTY
    | some v2 => pushV st (op v1 v2)

/-- `kop_print`: pop (panicking on an empty stack) and print the value. -/
def kopPrint (st : VMState) : Except String VMState := do
  let (o, st) ← popV st
  match o with
  | none => .error "Expecting non-empty stack"
  | some v => .ok { st with output := st.output ++ [showValue v] }

/-- `KERNAL_METHODS`: the id-to-built-in table; only id 0 (print) is
present. -/
def kernalMethodOf (n : Nat) : Option KMethod :=
  if n = 0 then some .Print else none

/-- `VM::define_variable`: read the name from the constant pool (panicking
if it is not a string), pop the initializer (panicking on an empty stack)
and bind it. -/
def defineVariableV (st : VMState) (nameIdx : Nat) : Except String VMState := do
  let v ← readConst st.chunk.valueArray nameIdx
  match v.asString with
  | none => .error "Expecting string as variable name"
  | some varname => do
    let (o, st) ← popV st
    match o with
    | none => .error "Expecting non-empty stack"
    | some v => .ok (updateGlobal st varname v)

/-- Outcome of dispatching one instruction: continue with the next
instruction, or break out of the run loop with a result. -/
inductive StepOut where
  | next (st : VMState)
  | halt (res : InterpretResult) (st : VMState)
deriving DecidableEq

/-- The state carried by a step outcome. -/
def StepOut.state : StepOut → VMState
  | .next st => st
  | .halt _ st => st

/-- One dispatch of the `match inst` in `VM::run`.  NOTE (faithful to the
source): there is no `OP_GET_GLOBAL` arm — that instruction falls into the
wildcard arm, which breaks out of the loop with `RuntimeError`. -/
def execInst (st : VMState) (inst : Inst) : Except String StepOut :=
  match inst with
  | .RETURN => .ok (.halt .Ok st)
  | .OP_POP => do
    let (_, st) ← popV st
    .ok (.next st)
  | .OP_KCALL tp =>
    match kernalMethodOf tp.code with
    | none => .error "Unsupported kernal method"
    | some .Print => do
      let st ← kopPrint st
      .ok (.next st)
  | .OP_DEFINE_GLOBAL nameIdx => do
    let st ← defineVariableV st nameIdx
    .ok (.next st)
  | .CONSTANT idx => do
    let v ← readConst st.chunk.valueArray idx
    let st ← pushV st v
    .ok (.next st)
  | .OP_NEGATE => do
    let (_, st) ← unopTypecheck st Value.isDouble "number"
    let st ← liftUnop st opNegate
    .ok (.next st)
  | .OP_NOT => do
    let (_, st) ← unopTypecheck st (fun v => v.isBool || v.isNil) "boolean or nil"
    let st ← liftUnop st opNot
    .ok (.next st)
  | .OP_ADD => do
    let (_, st) ← binopTypecheckBoth st
      (fun v1 v2 => (v1.isDouble && v2.isDouble) || (v1.isString && v2.isString))
      "number or string"
    let st ← liftBinop st opAdd
    .ok (.next st)
  | .OP_SUB => do
    let (_, st) ← binopTypecheck st Value.isDouble "number"
    let st ← liftBinop st opSub
    .ok (.next st)
  | .OP_DIV => do
    let (_, st) ← binopTypecheck st Value.isDouble "number"
    let st ← liftBinop st opDiv
    .ok (.next st)
  | .OP_MUL => do
    let (_, st) ← binopTypecheck st Value.isDouble "number"
    let st ← liftBinop st opMul
    .ok (.next st)
  | .OP_EQ => do
    let st ← liftBinop st opEq
    .ok (.next st)
  | .OP_GT => do
    let (_, st) ← binopTypecheck st Value.isDouble "number"
    let st ← liftBinop st opGt
    .ok (.next st)
  | .OP_LT => do
    let (_, st) ← binopTypecheck st Value.isDouble "number"
    let st ← liftBinop st opLt
    .ok (.next st)
  | .OP_GET_GLOBAL _ => .ok (.halt .RuntimeError st)

/-- `VM::fetch`: indexes the instruction sequence at `pc` (a panic when
`pc` runs past the end, as with a chunk missing its RETURN). -/
def fetchV (st : VMState) : Except String Inst :=
  match st.chunk.data.get? st.pc with
  | some i => .ok i
  | none => .error "index out of bounds"

/-- `VM::step`. -/
def stepPc (st : VMState) : VMState := { st with pc := st.pc + 1 }

/-- The fetch-dispatch-step loop of `VM::run`. -/
def runLoop : Nat → VMState → Except String (InterpretResult × VMState)
  | 0, _ => .error "out of fuel"
  | fuel + 1, st => do
    let inst ← fetchV st
    match ← execInst st inst with
    | .halt res st => .ok (res, st)
    | .next st => runLoop fuel (stepPc st)

/-- `VM::run`: since `pc` only increases and `fetch` panics past the end,
`data.length + 1` iterations always suffice. -/
def runVM (st : VMState) : Except String (InterpretResult × VMState) :=
  runLoop (st.chunk.data.length + 1) st

/-- `Driver::interpret`: compile, bail out with `CompileError` on failure,
else run a fresh VM on the produced chunk.  Returns the interpret result,
the compile diagnostics, and the stdout lines printed by the VM. -/
def interpretL (source : List Char) :
    Except String (InterpretResult × List String × List String) := do
  let (res, c) ← compile (compilerNew source)
  if res = false then .ok (.CompileError, c.diags, [])
  else do
    let (r, vm) ← runVM (vmNew c.chunk)
    .ok (r, c.diags, vm.output)

/-- `Driver::interpret` on a string source. -/
def interpret (source : String) :
    Except String (InterpretResult × List String × List String) :=
  interpretL source.toList

/-! Concrete states used by witness theorems. -/

/-- A parser state that is already in panic mode. -/
def demoPanicParser : ParserState := { parserNew with panic_mode := true }

/-- A concrete token. -/
def demoToken : Token :=
  { tp := .SemiColon, span := ⟨0, 1⟩, content := ";", line := 1 }

/-- A chunk holding one OP_NEGATE followed by RETURN. -/
def demoNegChunk : Chunk :=
  { data := [.OP_NEGATE, .RETURN], valueArray := [], lines := [1, 1] }

/-- A VM state with a boolean (not a double) on top of the stack, about to
execute the OP_NEGATE of `demoNegChunk`. -/
def demoNegVM : VMState :=
  { chunk := demoNegChunk, pc := 0
    stack := (List.replicate STACK_MAX Value.EMPTY).set 0 (.BOOL true)
    sp := 1, globals := [], output := [] }

/-- A chunk holding a single RETURN. -/
def demoRetChunk : Chunk := { data := [.RETURN], valueArray := [], lines := [1] }

/-- A fresh VM on `demoRetChunk`. -/
def demoVM0 : VMState := vmNew demoRetChunk

/-- `demoVM0` after pushing one boolean. -/
def demoVM1 : VMState :=
  { demoVM0 with stack := demoVM0.stack.set 0 (.BOOL true), sp := 1 }

/-- The operand-stack invariant of §3 of the spec: the backing store keeps
its fixed capacity of 128 slots and the stack pointer stays within it. -/
def StackInv (st : VMState) : Prop :=
  st.stack.length = STACK_MAX ∧ st.sp ≤ STACK_MAX

/-! Theorems.  First the bridging lemmas relating the kernel-reducible
rational helpers to the standard `Rat` operations, and generic inversion
helpers for the `Except` monad. -/

theorem ratAdd_eq (a b : Rat) : ratAdd a b = a + b :=
  (Rat.add_def' a b).symm

theorem ratSub_eq (a b : Rat) : ratSub a b = a - b :=
  (Rat.sub_def' a b).symm

theorem ratMul_eq (a b : Rat) : ratMul a b = a * b := by
  unfold ratMul
  rw [Rat.mul_def, Rat.normalize_eq_mkRat]

theorem ratInv_eq (a : Rat) : ratInv a = a.inv :=
  (Rat.inv_def a).symm

theorem ratDiv_eq (a b : Rat) : ratDiv a b = a / b := by
  unfold ratDiv
  rw [Rat.div_def, ratMul_eq, ratInv_eq]

theorem exceptBind_ok {α β : Type} {x : Except String α} {f : α → Except String β}
    {b : β} (h : (x >>= f) = .ok b) : ∃ a, x = .ok a ∧ f a = .ok b := by
  cases x with
  | ok a => exact ⟨a, rfl, h⟩
  | error e => exact Except.noConfusion h

theorem pushV_ok {st : VMState} {v : Value} {st' : VMState}
    (h : pushV st v = .ok st') :
    st.sp < st.stack.length ∧
    st' = { st with stack := st.stack.set st.sp v, sp := st.sp + 1 } := by
  unfold pushV at h
  split at h
  · cases h
    exact ⟨by assumption, rfl⟩
  · exact Except.noConfusion h

theorem pushV_full {st : VMState} (v : Value) (h : ¬ st.sp < st.stack.length) :
    pushV st v = .error "index out of bounds" := by
  unfold pushV
  rw [if_neg h]

theorem popV_zero {st : VMState} (h : st.sp = 0) : popV st = .ok (none, st) := by
  unfold popV
  rw [if_pos h]

theorem popV_ok {st : VMState} {o : Option Value} {st' : VMState}
    (h : popV st = .ok (o, st')) :
    st'.stack = st.stack ∧ st'.sp ≤ st.sp ∧ st'.chunk = st.chunk ∧
      st'.output = st.output := by
  unfold popV at h
  split at h
  · cases h
    exact ⟨rfl, Nat.le_refl _, rfl, rfl⟩
  · split at h
    · cases h
      exact ⟨rfl, Nat.sub_le _ _, rfl, rfl⟩
    · exact Except.noConfusion h

theorem popV_pos {st : VMState} (hInv : StackInv st) (hpos : 1 ≤ st.sp) :
    ∃ v, st.stack.get? (st.sp - 1) = some v ∧
      popV st = .ok (some v, { st with sp := st.sp - 1 }) := by
  obtain ⟨hlen, hsp⟩ := hInv
  have h128 : STACK_MAX = 128 := rfl
  have hlt : st.sp - 1 < st.stack.length := by omega
  refine ⟨st.stack.get ⟨st.sp - 1, hlt⟩, List.get?_eq_get hlt, ?_⟩
  unfold popV
  rw [if_neg (by omega), List.get?_eq_get hlt]

theorem pushV_inv {st : VMState} {v : Value} {st' : VMState}
    (h : pushV st v = .ok st') (hInv : StackInv st) : StackInv st' := by
  obtain ⟨hlt, rfl⟩ := pushV_ok h
  obtain ⟨hlen, hsp⟩ := hInv
  refine ⟨by simpa using hlen, ?_⟩
  simp only []
  omega

theorem popV_inv {st : VMState} {o : Option Value} {st' : VMState}
    (h : popV st = .ok (o, st')) (hInv : StackInv st) : StackInv st' := by
  obtain ⟨hstack, hsp, _, _⟩ := popV_ok h
  exact ⟨hstack ▸ hInv.1, Nat.le_trans hsp hInv.2⟩

theorem runtimeErrorV_ok {st : VMState} {msg : String} {st' : VMState}
    (h : runtimeErrorV st msg = .ok st') :
    st'.stack = st.stack ∧ st'.sp = st.sp := by
  unfold runtimeErrorV at h
  split at h
  · cases h
    exact ⟨rfl, rfl⟩
  · exact Except.noConfusion h

theorem unopTypecheck_ok {st : VMState} {checker : Value → Bool} {desc : String}
    {b : Bool} {st' : VMState}
    (h : unopTypecheck st checker desc = .ok (b, st')) :
    st'.stack = st.stack ∧ st'.sp = st.sp := by
  unfold unopTypecheck at h
  obtain ⟨v, hv, h⟩ := exceptBind_ok h
  split at h
  · cases h
    exact ⟨rfl, rfl⟩
  · obtain ⟨st1, h1, h2⟩ := exceptBind_ok h
    cases h2
    exact runtimeErrorV_ok h1

theorem binopTypecheck_ok {st : VMState} {checker : Value → Bool} {desc : String}
    {b : Bool} {st' : VMState}
    (h : binopTypecheck st checker desc = .ok (b, st')) :
    st'.stack = st.stack ∧ st'.sp = st.sp := by
  unfold binopTypecheck at h
  obtain ⟨v1, hv1, h⟩ := exceptBind_ok h
  obtain ⟨v2, hv2, h⟩ := exceptBind_ok h
  split at h
  · cases h
    exact ⟨rfl, rfl⟩
  · obtain ⟨st1, h1, h2⟩ := exceptBind_ok h
    cases h2
    exact runtimeErrorV_ok h1

theorem binopTypecheckBoth_ok {st : VMState} {checker : Value → Value → Bool}
    {desc : String} {b : Bool} {st' : VMState}
    (h : binopTypecheckBoth st checker desc = .ok (b, st')) :
    st'.stack = st.stack ∧ st'.sp = st.sp := by
  unfold binopTypecheckBoth at h
  obtain ⟨v1, hv1, h⟩ := exceptBind_ok h
  obtain ⟨v2, hv2, h⟩ := exceptBind_ok h
  split at h
  · cases h
    exact ⟨rfl, rfl⟩
  · obtain ⟨st1, h1, h2⟩ := exceptBind_ok h
    cases h2
    exact runtimeErrorV_ok h1

theorem liftUnop_inv {st : VMState} {op : Value → Value} {st' : VMState}
    (h : liftUnop st op = .ok st') (hInv : StackInv st) : StackInv st' := by
  unfold liftUnop at h
  obtain ⟨⟨o, st1⟩, h1, h2⟩ := exceptBind_ok h
  have hInv1 : StackInv st1 := popV_inv h1 hInv
  cases o with
  | none => exact pushV_inv h2 hInv1
  | some v0 => exact pushV_inv h2 hInv1

theorem liftBinop_inv {st : VMState} {op : Value → Value → Value} {st' : VMState}
    (h : liftBinop st op = .ok st') (hInv : StackInv st) : StackInv st' := by
  unfold liftBinop at h
  obtain ⟨⟨o1, st1⟩, h1, h2⟩ := exceptBind_ok h
  have hInv1 : StackInv st1 := popV_inv h1 hInv
  cases o1 with
  | none => exact pushV_inv h2 hInv1
  | some v1 =>
    obtain ⟨⟨o2, st2⟩, h3, h4⟩ := exceptBind_ok h2
    have hInv2 : StackInv st2 := popV_inv h3 hInv1
    cases o2 with
    | none => exact pushV_inv h4 hInv2
    | some v2 => exact pushV_inv h4 hInv2

theorem kopPrint_inv {st st' : VMState}
    (h : kopPrint st = .ok st') (hInv : StackInv st) : StackInv st' := by
  unfold kopPrint at h
  obtain ⟨⟨o, st1⟩, h1, h2⟩ := exceptBind_ok h
  have hInv1 : StackInv st1 := popV_inv h1 hInv
  cases o with
  | none => exact Except.noConfusion h2
  | some v =>
    cases h2
    exact hInv1

theorem defineVariableV_inv {st : VMState} {nameIdx : Nat} {st' : VMState}
    (h : defineVariableV st nameIdx = .ok st') (hInv : StackInv st) :
    StackInv st' := by
  unfold defineVariableV at h
  obtain ⟨v, hv, h⟩ := exceptBind_ok h
  split at h
  · exact Except.noConfusion h
  · obtain ⟨⟨o, st1⟩, h1, h2⟩ := exceptBind_ok h
    have hInv1 : StackInv st1 := popV_inv h1 hInv
    cases o with
    | none => exact Except.noConfusion h2
    | some w =>
      cases h2
      exact hInv1

theorem execInst_inv {st : VMState} {inst : Inst} {out : StepOut}
    (h : execInst st inst = .ok out) (hInv : StackInv st) :
    StackInv out.state := by
  cases inst with
  | RETURN =>
    cases h
    exact hInv
  | OP_POP =>
    obtain ⟨⟨o, st1⟩, h1, h2⟩ := exceptBind_ok h
    cases h2
    exact popV_inv h1 hInv
  | OP_KCALL tp =>
    cases tp
    obtain ⟨st1, h1, h2⟩ := exceptBind_ok h
    cases h2
    exact kopPrint_inv h1 hInv
  | OP_DEFINE_GLOBAL nameIdx =>
    obtain ⟨st1, h1, h2⟩ := exceptBind_ok h
    cases h2
    exact defineVariableV_inv h1 hInv
  | CONSTANT idx =>
    obtain ⟨v, hv, h⟩ := exceptBind_ok h
    obtain ⟨st1, h1, h2⟩ := exceptBind_ok h
    cases h2
    exact pushV_inv h1 hInv
  | OP_NEGATE =>
    obtain ⟨⟨b, st1⟩, h1, h⟩ := exceptBind_ok h
    obtain ⟨st2, h2, h3⟩ := exceptBind_ok h
    cases h3
    have e := unopTypecheck_ok h1
    exact liftUnop_inv h2 ⟨e.1 ▸ hInv.1, e.2 ▸ hInv.2⟩
  | OP_NOT =>
    obtain ⟨⟨b, st1⟩, h1, h⟩ := exceptBind_ok h
    obtain ⟨st2, h2, h3⟩ := exceptBind_ok h
    cases h3
    have e := unopTypecheck_ok h1
    exact liftUnop_inv h2 ⟨e.1 ▸ hInv.1, e.2 ▸ hInv.2⟩
  | OP_ADD =>
    obtain ⟨⟨b, st1⟩, h1, h⟩ := exceptBind_ok h
    obtain ⟨st2, h2, h3⟩ := exceptBind_ok h
    cases h3
    have e := binopTypecheckBoth_ok h1
    exact liftBinop_inv h2 ⟨e.1 ▸ hInv.1, e.2 ▸ hInv.2⟩
  | OP_SUB =>
    obtain ⟨⟨b, st1⟩, h1, h⟩ := exceptBind_ok h
    obtain ⟨st2, h2, h3⟩ := exceptBind_ok h
    cases h3
    have e := binopTypecheck_ok h1
    exact liftBinop_inv h2 ⟨e.1 ▸ hInv.1, e.2 ▸ hInv.2⟩
  | OP_DIV =>
    obtain ⟨⟨b, st1⟩, h1, h⟩ := exceptBind_ok h
    obtain ⟨st2, h2, h3⟩ := exceptBind_ok h
    cases h3
    have e := binopTypecheck_ok h1
    exact liftBinop_inv h2 ⟨e.1 ▸ hInv.1, e.2 ▸ hInv.2⟩
  | OP_MUL =>
    obtain ⟨⟨b, st1⟩, h1, h⟩ := exceptBind_ok h
    obtain ⟨st2, h2, h3⟩ := exceptBind_ok h
    cases h3
    have e := binopTypecheck_ok h1
    exact liftBinop_inv h2 ⟨e.1 ▸ hInv.1, e.2 ▸ hInv.2⟩
  | OP_EQ =>
    obtain ⟨st1, h1, h2⟩ := exceptBind_ok h
    cases h2
    exact liftBinop_inv h1 hInv
  | OP_GT =>
    obtain ⟨⟨b, st1⟩, h1, h⟩ := exceptBind_ok h
    obtain ⟨st2, h2, h3⟩ := exceptBind_ok h
    cases h3
    have e := binopTypecheck_ok h1
    exact liftBinop_inv h2 ⟨e.1 ▸ hInv.1, e.2 ▸ hInv.2⟩
  | OP_LT =>
    obtain ⟨⟨b, st1⟩, h1, h⟩ := exceptBind_ok h
    obtain ⟨st2, h2, h3⟩ := exceptBind_ok h
    cases h3
    have e := binopTypecheck_ok h1
    exact liftBinop_inv h2 ⟨e.1 ▸ hInv.1, e.2 ▸ hInv.2⟩
  | OP_GET_GLOBAL nameIdx =>
    cases h
    exact hInv

theorem runLoop_inv {fuel : Nat} {st : VMState} {r : InterpretResult}
    {st' : VMState} (h : runLoop fuel st = .ok (r, st')) (hInv : StackInv st) :
    StackInv st' := by
  induction fuel generalizing st with
  | zero => exact Except.noConfusion h
  | succ fuel ih =>
    obtain ⟨inst, hfetch, h⟩ := exceptBind_ok h
    obtain ⟨outp, hexec, h2⟩ := exceptBind_ok h
    have hout := execInst_inv hexec hInv
    cases outp with
    | halt res st2 =>
      cases h2
      exact hout
    | next st2 =>
      exact ih h2 ⟨hout.1, hout.2⟩

set_option maxRecDepth 400000

/-- C1: `VM::run` has no arm for OP_GET_GLOBAL, so the instruction falls
into the wildcard and halts with RuntimeError instead of pushing the bound
value: every `execInst` on OP_GET_GLOBAL halts, `var x = 1; print x;`
prints nothing and returns RuntimeError (not Ok with output `1`), and so
does the longer redefinition program. -/
theorem C1_get_global_unhandled :
    (∀ (st : VMState) (i : Nat),
        execInst st (Inst.OP_GET_GLOBAL i) =
          Except.ok (StepOut.halt InterpretResult.RuntimeError st)) ∧
    interpret "var x = 1; print x;" =
      Except.ok (InterpretResult.RuntimeError, [], []) ∧
    interpret "var x = 1; print x; var x = 2; print x;" =
      Except.ok (InterpretResult.RuntimeError, [], []) :=
  ⟨fun _ _ => rfl, rfl, rfl⟩

/-- C2 counterexample: `print "a" + "b";` writes the single stdout line
`'ab'` (left operand's text first, wrapped in the single quotes that
`show_obj` adds), which is not the line `ba` the claim asserts. -/
theorem C2_counterexample :
    interpret "print \"a\" + \"b\";" =
      Except.ok (InterpretResult.Ok, [], [squote ++ "ab" ++ squote]) ∧
    squote ++ "ab" ++ squote ≠ "ba" :=
  ⟨rfl, by decide⟩

/-- C2 (amended): `print "a" + "b";` writes the line `'ab'`: `op_add`
concatenates the second-popped (left) operand's text with the first-popped
(right) operand's text, and `kop_print` renders strings wrapped in single
quotes. -/
theorem C2_string_concat_output :
    (∀ s1 s2 : String,
        opAdd (Value.OBJ (.Str s1)) (Value.OBJ (.Str s2)) =
          Value.createStringObj (s2 ++ s1)) ∧
    interpret "print \"a\" + \"b\";" =
      Except.ok (InterpretResult.Ok, [], [squote ++ "ab" ++ squote]) :=
  ⟨fun _ _ => rfl, rfl⟩

/-- C3: the parse table of `make_rules` is not defined for every token kind
the lexer can produce — `!=`, `>=`, `<=`, `=`, `if`, `and`, `or`, `while`
have no entry — and `get_rule` on a missing kind panics (HashMap index),
so `compile` crashes on `1 != 2;` instead of returning a boolean. -/
theorem C3_parse_table_incomplete :
    makeRules .BangEqual = none ∧
    makeRules .GreaterEqual = none ∧
    makeRules .LessEqual = none ∧
    makeRules .Equal = none ∧
    makeRules .If = none ∧
    makeRules .And = none ∧
    makeRules .Or = none ∧
    makeRules .While = none ∧
    getRule .BangEqual = .error "key not found" ∧
    interpret "1 != 2;" = .error "key not found" :=
  ⟨rfl, rfl, rfl, rfl, rfl, rfl, rfl, rfl, rfl, rfl⟩

/-- C4: `scan_number` checks for a fraction dot by calling `peek` without
an end-of-buffer guard, so `next_token` on the source `12` (a digit run
reaching the end of the buffer) panics with an out-of-bounds index rather
than returning a Number token; with a terminator present (`12;`) the same
call returns the Number token `12`. -/
theorem C4_scan_number_eof_panic :
    nextToken "12".toList scannerNew = .error "index out of bounds" ∧
    ∃ t s, nextToken "12;".toList scannerNew = .ok (t, s) ∧
      t.tp = .Number ∧ t.content = "12" :=
  ⟨rfl, _, _, rfl, rfl, rfl⟩

/-- C5: the binary operator functions receive (first-popped, second-popped)
and flip the order — `op_sub` computes `x2 - x1`, `op_div` computes
`x2 / x1`, `op_gt` tests `x2 > x1` and `op_lt` tests `x2 < x1` — so
left-operator-right source semantics hold: `print 10 - 3;` outputs `7`,
`print 10 / 2;` outputs `5`, and `print 3 < 5;` outputs `true`. -/
theorem C5_binop_operand_flip :
    (∀ x1 x2 : Rat, opSub (.DOUBLE x1) (.DOUBLE x2) = .DOUBLE (x2 - x1)) ∧
    (∀ x1 x2 : Rat, opDiv (.DOUBLE x1) (.DOUBLE x2) = .DOUBLE (x2 / x1)) ∧
    (∀ x1 x2 : Rat, opGt (.DOUBLE x1) (.DOUBLE x2) = .BOOL (Rat.blt x1 x2) ∧
      (Rat.blt x1 x2 = true ↔ x2 > x1)) ∧
    (∀ x1 x2 : Rat, opLt (.DOUBLE x1) (.DOUBLE x2) = .BOOL (Rat.blt x2 x1) ∧
      (Rat.blt x2 x1 = true ↔ x2 < x1)) ∧
    interpret "print 10 - 3;" = Except.ok (InterpretResult.Ok, [], ["7"]) ∧
    interpret "print 10 / 2;" = Except.ok (InterpretResult.Ok, [], ["5"]) ∧
    interpret "print 3 < 5;" = Except.ok (InterpretResult.Ok, [], ["true"]) :=
  ⟨fun x1 x2 => by simp [opSub, ratSub_eq],
   fun x1 x2 => by simp [opDiv, ratDiv_eq],
   fun x1 x2 => ⟨rfl, Iff.rfl⟩,
   fun x1 x2 => ⟨rfl, Iff.rfl⟩,
   rfl, rfl, rfl⟩

/-- C6: `op_eq` compares double/double, bool/bool, nil/nil and
string/string (by content) and yields the boolean `false` on every other
pairing — it always produces a BOOL, never an error value — so
`print nil == nil;` outputs `true` and `print 1 == "1";` outputs
`false`. -/
theorem C6_op_eq_total :
    (∀ x1 x2 : Rat, opEq (.DOUBLE x1) (.DOUBLE x2) = .BOOL (decide (x1 = x2))) ∧
    (∀ b1 b2 : Bool, opEq (.BOOL b1) (.BOOL b2) = .BOOL (b1 == b2)) ∧
    opEq .NIL .NIL = .BOOL true ∧
    (∀ s1 s2 : String,
        opEq (.OBJ (.Str s1)) (.OBJ (.Str s2)) = .BOOL (s1 == s2)) ∧
    (∀ v1 v2 : Value, ∃ b : Bool, opEq v1 v2 = .BOOL b) ∧
    interpret "print nil == nil;" = Except.ok (InterpretResult.Ok, [], ["true"]) ∧
    interpret "print 1 == \"1\";" = Except.ok (InterpretResult.Ok, [], ["false"]) :=
  ⟨fun _ _ => rfl, fun _ _ => rfl, rfl, fun _ _ => rfl,
   fun v1 v2 => by
    cases v1 with
    | OBJ o1 =>
      cases o1
      cases v2 with
      | OBJ o2 => cases o2; exact ⟨_, rfl⟩
      | _ => exact ⟨_, rfl⟩
    | _ =>
      cases v2 with
      | OBJ o2 => cases o2; exact ⟨_, rfl⟩
      | _ => exact ⟨_, rfl⟩,
   rfl, rfl⟩

/-- C8: compiling `print 1 +;` reports exactly one diagnostic and yields
CompileError without running the chunk; and once `panic_mode` is set,
`error_at` returns the parser state unchanged and prints nothing, so every
subsequent error report in the same compilation is suppressed while
`had_error` keeps its value. -/
theorem C8_single_diagnostic
    (p : ParserState) (token : Token) (msg : String)
    (h : p.panic_mode = true) :
    interpret "print 1 +;" =
      Except.ok (InterpretResult.CompileError,
        ["[line 1] Error at ; : Expect expression."], []) ∧
    errorAt p token msg = (p, []) :=
  ⟨rfl, by simp [errorAt, h]⟩

/-- C8 witness: the theorem applied to a concrete panicking parser state. -/
theorem C8_witness :
    interpret "print 1 +;" =
      Except.ok (InterpretResult.CompileError,
        ["[line 1] Error at ; : Expect expression."], []) ∧
    errorAt demoPanicParser demoToken "Expect expression." = (demoPanicParser, []) :=
  C8_single_diagnostic demoPanicParser demoToken "Expect expression." rfl

/-- C7: executing OP_NEGATE with a non-double value on top of the stack
reports a runtime type error but does not abort the run loop: the operand
is popped, the EMPTY sentinel is pushed in its place (same stack height),
the dispatch returns a `next` outcome — not a `RuntimeError` halt — so
execution proceeds to the following instruction, with the diagnostic line
appended to the output. -/
theorem C7_negate_type_error_continues
    (st : VMState) (v : Value)
    (hlen : st.stack.length = STACK_MAX)
    (hsp : st.sp ≤ STACK_MAX)
    (hpos : 1 ≤ st.sp)
    (hline : st.pc < st.chunk.lines.length)
    (htop : st.stack.get? (st.sp - 1) = some v)
    (hnd : v.isDouble = false) :
    ∃ st', execInst st .OP_NEGATE = .ok (.next st') ∧
      st'.sp = st.sp ∧ st'.pc = st.pc ∧
      st'.stack.get? (st.sp - 1) = some Value.EMPTY ∧
      st'.output = st.output ++ ["Expecting operand of type number"] := by
  have h128 : STACK_MAX = 128 := rfl
  have hlt : st.sp - 1 < st.stack.length := by omega
  have hv : peekV st = .ok v := by
    unfold peekV peekOptV
    rw [if_neg (by omega), htop]
    rfl
  have hrt : runtimeErrorV st ("Expecting operand of type " ++ "number") =
      .ok { st with output := st.output ++ ["Expecting operand of type " ++ "number"] } := by
    unfold runtimeErrorV
    rw [List.get?_eq_get hline]
  have hut : unopTypecheck st Value.isDouble "number" =
      .ok (false, { st with output := st.output ++ ["Expecting operand of type " ++ "number"] }) := by
    unfold unopTypecheck
    rw [hv]
    show (if Value.isDouble v = true then _ else _) = _
    rw [hnd]
    simp only [Bool.false_eq_true, if_false]
    rw [hrt]
    rfl
  have hneg : opNegate v = Value.EMPTY := by
    cases v with
    | DOUBLE x => exact absurd hnd (by simp [Value.isDouble])
    | BOOL b => rfl
    | NIL => rfl
    | OBJ o => rfl
    | EMPTY => rfl
  refine ⟨{ st with
      stack := st.stack.set (st.sp - 1) Value.EMPTY,
      sp := st.sp - 1 + 1,
      output := st.output ++ ["Expecting operand of type number"] },
    ?_, ?_, rfl, ?_, rfl⟩
  · have harm : execInst st Inst.OP_NEGATE =
        (unopTypecheck st Value.isDouble "number" >>= fun p =>
          liftUnop p.2 opNegate >>= fun s2 => Except.ok (StepOut.next s2)) := rfl
    rw [harm, hut]
    have hstep1 :
        ((Except.ok (false, { st with
            output := st.output ++ ["Expecting operand of type " ++ "number"] })
            : Except String (Bool × VMState)) >>= fun p =>
          liftUnop p.2 opNegate >>= fun s2 => Except.ok (StepOut.next s2)) =
        (liftUnop { st with
            output := st.output ++ ["Expecting operand of type " ++ "number"] }
          opNegate >>= fun s2 => Except.ok (StepOut.next s2)) := rfl
    rw [hstep1]
    have hpop : popV { st with
        output := st.output ++ ["Expecting operand of type " ++ "number"] } =
        .ok (some v, { st with
          sp := st.sp - 1,
          output := st.output ++ ["Expecting operand of type " ++ "number"] }) := by
      unfold popV
      rw [if_neg (show ¬ ({ st with
          output := st.output ++ ["Expecting operand of type " ++ "number"] }
            : VMState).sp = 0 from by
        show ¬ st.sp = 0
        omega)]
      have hget : ({ st with
          output := st.output ++ ["Expecting operand of type " ++ "number"] }
            : VMState).stack.get? (({ st with
          output := st.output ++ ["Expecting operand of type " ++ "number"] }
            : VMState).sp - 1) = some v := htop
      rw [hget]
    have hlift : liftUnop { st with
        output := st.output ++ ["Expecting operand of type " ++ "number"] }
          opNegate =
        pushV { st with
          sp := st.sp - 1,
          output := st.output ++ ["Expecting operand of type " ++ "number"] }
          (opNegate v) := by
      unfold liftUnop
      rw [hpop]
      rfl
    rw [hlift, hneg]
    unfold pushV
    rw [if_pos (show ({ st with
        sp := st.sp - 1,
        output := st.output ++ ["Expecting operand of type " ++ "number"] }
          : VMState).sp < ({ st with
        sp := st.sp - 1,
        output := st.output ++ ["Expecting operand of type " ++ "number"] }
          : VMState).stack.length from by
      show st.sp - 1 < st.stack.length
      omega)]
    rfl
  · show st.sp - 1 + 1 = st.sp
    omega
  · show (st.stack.set (st.sp - 1) Value.EMPTY).get? (st.sp - 1) = some Value.EMPTY
    exact List.get?_set_eq_of_lt _ hlt

/-- C7 witness: the theorem applied to a concrete VM whose stack top is the
boolean `true`, about to execute OP_NEGATE. -/
theorem C7_witness :
    ∃ st', execInst demoNegVM .OP_NEGATE = .ok (.next st') ∧
      st'.sp = demoNegVM.sp ∧ st'.pc = demoNegVM.pc ∧
      st'.stack.get? (demoNegVM.sp - 1) = some Value.EMPTY ∧
      st'.output = demoNegVM.output ++ ["Expecting operand of type number"] :=
  C7_negate_type_error_continues demoNegVM (Value.BOOL true)
    (by decide) (by decide) (by decide) (by decide) (by decide) rfl

/-- C9: the operand-stack invariant `0 ≤ sp ≤ 128` (the lower bound is
inherent to `Nat`) holds throughout `VM::run` on every chunk: `push`
writes the value at index `sp` and then increments `sp`, succeeding only
below the fixed capacity of 128 (at capacity the unchecked vector index
panics, so `sp` never exceeds it); `pop` returns None when `sp = 0` and
otherwise decrements `sp` and returns the value at the new `sp`; and both
every single instruction dispatch and every completed `runLoop` preserve
the invariant. -/
theorem C9_stack_invariant :
    (∀ (st : VMState) (v : Value) (st' : VMState),
        pushV st v = .ok st' → StackInv st →
          StackInv st' ∧ st'.sp = st.sp + 1 ∧ st'.stack.get? st.sp = some v) ∧
    (∀ (st : VMState) (v : Value), StackInv st → st.sp = STACK_MAX →
        pushV st v = .error "index out of bounds") ∧
    (∀ st : VMState, st.sp = 0 → popV st = .ok (none, st)) ∧
    (∀ st : VMState, StackInv st → 1 ≤ st.sp →
        ∃ v, st.stack.get? (st.sp - 1) = some v ∧
          popV st = .ok (some v, { st with sp := st.sp - 1 })) ∧
    (∀ (st : VMState) (inst : Inst) (out : StepOut),
        execInst st inst = .ok out → StackInv st → StackInv out.state) ∧
    (∀ (fuel : Nat) (st : VMState) (r : InterpretResult) (st' : VMState),
        runLoop fuel st = .ok (r, st') → StackInv st → StackInv st') := by
  refine ⟨?_, ?_, ?_, ?_, ?_, ?_⟩
  · intro st v st' h hInv
    refine ⟨pushV_inv h hInv, ?_, ?_⟩
    · obtain ⟨_, rfl⟩ := pushV_ok h
      rfl
    · obtain ⟨hlt, rfl⟩ := pushV_ok h
      exact List.get?_set_eq_of_lt _ hlt
  · intro st v hInv hsp
    refine pushV_full v ?_
    rw [hInv.1, hsp]
    exact Nat.lt_irrefl _
  · intro st h
    exact popV_zero h
  · intro st hInv hpos
    exact popV_pos hInv hpos
  · intro st inst out h hInv
    exact execInst_inv h hInv
  · intro fuel st r st' h hInv
    exact runLoop_inv h hInv

/-- C9 witness: the invariant facts instantiated on a fresh VM over a
RETURN-only chunk, its pushed successor, and a completed run. -/
theorem C9_witness :
    (StackInv demoVM1 ∧ demoVM1.sp = demoVM0.sp + 1 ∧
      demoVM1.stack.get? demoVM0.sp = some (Value.BOOL true)) ∧
    popV demoVM0 = .ok (none, demoVM0) ∧
    (∃ v, demoVM1.stack.get? (demoVM1.sp - 1) = some v ∧
      popV demoVM1 = .ok (some v, { demoVM1 with sp := demoVM1.sp - 1 })) ∧
    StackInv demoVM0 :=
  ⟨C9_stack_invariant.1 demoVM0 (Value.BOOL true) demoVM1 rfl ⟨rfl, by decide⟩,
   C9_stack_invariant.2.2.1 demoVM0 rfl,
   C9_stack_invariant.2.2.2.1 demoVM1 ⟨by decide, by decide⟩ (by decide),
   C9_stack_invariant.2.2.2.2.2 2 demoVM0 InterpretResult.Ok demoVM0 rfl
     ⟨rfl, by decide⟩⟩

/-- C10: the rule table stores `parse_unary` as the prefix action of both
`-` and `!`; `parse_unary` parses its operand with `parse_expression`,
which enters the precedence climber at Assignment (the lowest real level)
rather than Unary, so a unary operator applies to the entire remainder of
the expression: `print - 2 + 3;` outputs `-5` and
`print ! true == false;` outputs `true`. -/
theorem C10_unary_parses_full_expression :
    makeRules .Minus = some ⟨some .unary, some .binary, .Term⟩ ∧
    makeRules .Bang = some ⟨some .unary, none, .None⟩ ∧
    (∀ (fuel : Nat) (c : CompilerState),
        parseExpression (fuel + 1) c = parsePrec fuel .Assignment c) ∧
    (∀ (fuel : Nat) (c : CompilerState),
        parseUnary (fuel + 1) c =
          (parseExpression fuel c).bind fun c2 =>
            match c.parser.previous.tp with
            | .Minus => .ok (emitInst c2 .OP_NEGATE)
            | .Bang => .ok (emitInst c2 .OP_NOT)
            | _ => .error "Unexpected unary operator") ∧
    interpret "print - 2 + 3;" = Except.ok (InterpretResult.Ok, [], ["-5"]) ∧
    interpret "print ! true == false;" =
      Except.ok (InterpretResult.Ok, [], ["true"]) :=
  ⟨rfl, rfl, fun _ _ => rfl, fun _ _ => rfl, rfl, rfl⟩

end RLox
